import Mathlib

/-!
A shallow embedding of the usbd-storage core: the IO buffer (`buffer.rs`),
the Bulk-Only Transport state machine (`transport/bbb.rs`) and the SCSI
subclass poll loop (`subclass/scsi.rs`).  Bytes are modelled as `Nat`
(values below 256 on the wire), byte regions as `List Nat`, `u32` fields
as `Nat` with explicit `% 2^32` reductions where the code truncates.
Mutable-slice closures (`FnOnce(&mut [u8]) -> Result<usize, E>`) are
modelled as pure functions returning the count together with the new
slice contents.  USB endpoint traffic is an explicit input: an attempted
OUT-endpoint read is an `Except UsbError (List Nat)` (the packet the bus
delivered, or `WouldBlock`/a fault), an attempted IN-endpoint write is an
`Except UsbError Unit` (the bus accepted the packet, or not); packets the
bus accepted are collected in a `sent` output list.
-/

/-- Replaces the bytes of `l` starting at `pos` with `data` (clipped so the
result keeps the length of `l`); models `copy_from_slice` into a subslice. -/
def setSlice (l : List Nat) (pos : Nat) (data : List Nat) : List Nat :=
  l.take pos ++ data.take (l.length - pos) ++ l.drop (pos + data.length)

/-- IO buffer with read/write cursors; models `Buffer` of `buffer.rs`. -/
structure Buffer where
  inner : List Nat
  rpos : Nat
  wpos : Nat
deriving DecidableEq, Repr

def Buffer.availableRead (b : Buffer) : Nat := b.wpos - b.rpos

def Buffer.availableWrite (b : Buffer) : Nat := b.inner.length - b.wpos

def Buffer.clean (b : Buffer) : Buffer := { b with rpos := 0, wpos := 0 }

/-- Compaction: move the unread region `[rpos..wpos)` to offset 0; models
`Buffer::shift` (the `ptr::copy` leaves bytes past the moved region stale). -/
def Buffer.shift (b : Buffer) : Buffer :=
  if b.rpos ≠ b.wpos then
    { b with inner := setSlice b.inner 0 ((b.inner.drop b.rpos).take b.availableRead),
             wpos := b.wpos - b.rpos, rpos := 0 }
  else b.clean

/-- The unread region `inner[rpos..wpos]` handed to `read` closures. -/
def Buffer.readableSlice (b : Buffer) : List Nat :=
  (b.inner.drop b.rpos).take b.availableRead

/-- Models `Buffer::write`: compact if the data does not fit, then copy
`min(available_write, data.len)` bytes; returns the count and new buffer. -/
def Buffer.write (b : Buffer) (data : List Nat) : Nat × Buffer :=
  let b := if b.availableWrite < data.length then b.shift else b
  let count := min b.availableWrite data.length
  (count, { b with inner := setSlice b.inner b.wpos (data.take count),
                   wpos := b.wpos + count })

/-- Models `Buffer::write_all`: ensure `available_write ≥ max_count`
(compacting if needed, else the overflow error), hand the writable slice
`inner[wpos..wpos+max_count]` to `f`, advance `wpos` by
`min(count, inner.len − wpos)` where `count` is what `f` returned. -/
def Buffer.writeAll {E : Type} (b : Buffer) (maxCount : Nat) (overflowErr : E)
    (f : List Nat → Except E (Nat × List Nat)) : Buffer × Except E Nat :=
  let b := if b.availableWrite < maxCount then b.shift else b
  if b.availableWrite < maxCount then (b, .error overflowErr)
  else
    match f ((b.inner.drop b.wpos).take maxCount) with
    | .error e => (b, .error e)
    | .ok (count, slice) =>
      let advanceBy := min count (b.inner.length - b.wpos)
      ({ b with inner := setSlice b.inner b.wpos (slice.take maxCount),
                wpos := b.wpos + advanceBy },
       .ok advanceBy)

/-- Models `Buffer::read`: hand `inner[rpos..wpos]` to `f`, advance `rpos`
by `min(count, available_read)` where `count` is what `f` returned. -/
def Buffer.read {E : Type} (b : Buffer) (f : List Nat → Except E Nat) :
    Buffer × Except E Nat :=
  match f b.readableSlice with
  | .error e => (b, .error e)
  | .ok count =>
    let advanceBy := min count b.availableRead
    ({ b with rpos := b.rpos + advanceBy }, .ok advanceBy)

/-- Decidable equality for `Except`, used to evaluate the model on
concrete inputs. -/
instance {E A : Type} [DecidableEq E] [DecidableEq A] :
    DecidableEq (Except E A) := fun a b =>
  match a, b with
  | .ok x, .ok y =>
    if h : x = y then .isTrue (by rw [h])
    else .isFalse (fun hh => h (Except.ok.inj hh))
  | .error x, .error y =>
    if h : x = y then .isTrue (by rw [h])
    else .isFalse (fun hh => h (Except.error.inj hh))
  | .ok _, .error _ => .isFalse (fun hh => Except.noConfusion hh)
  | .error _, .ok _ => .isFalse (fun hh => Except.noConfusion hh)

/-- USB stack error (`usb_device::UsbError`); the transport only ever
distinguishes `WouldBlock` from the rest. -/
inductive UsbError where
  | wouldBlock
  | other (code : Nat)
deriving DecidableEq, Repr

/-- Bulk Only Transport error (`BulkOnlyError` of `transport/bbb.rs`). -/
inductive BulkOnlyError where
  | ioBufferOverflow
  | invalidMaxLun
  | invalidState
  | fullPacketExpected
  | bufferTooSmall
deriving DecidableEq, Repr

/-- Transport error wrapper (`TransportError` of `transport/mod.rs`). -/
inductive TransportError where
  | usb (e : UsbError)
  | error (e : BulkOnlyError)
deriving DecidableEq, Repr

/-- Command status (`CommandStatus` of `transport/mod.rs`). -/
inductive CommandStatus where
  | passed
  | failed
  | phaseError
deriving DecidableEq, Repr

/-- Numeric value of a status (`CommandStatus as u8`). -/
def CommandStatus.toByte : CommandStatus → Nat
  | .passed => 0
  | .failed => 1
  | .phaseError => 2

/-- Transport state (`State` of `transport/bbb.rs`). -/
inductive TState where
  | idle
  | commandTransfer
  | dataTransferToHost
  | dataTransferFromHost
  | dataTransferNoData
  | statusTransfer
deriving DecidableEq, Repr

/-- Data direction of a command (`DataDirection` of `transport/bbb.rs`). -/
inductive DataDirection where
  | dirOut
  | dirIn
  | notExpected
deriving DecidableEq, Repr

/-- Parsed Command Block Wrapper (`CommandBlockWrapper`). -/
structure CommandBlockWrapper where
  tag : Nat
  dataTransferLen : Nat
  direction : DataDirection
  lun : Nat
  blockLen : Nat
  block : List Nat
deriving DecidableEq, Repr

/-- The `Default` impl: zeroed fields, direction `NotExpected`. -/
def CommandBlockWrapper.default : CommandBlockWrapper :=
  { tag := 0, dataTransferLen := 0, direction := .notExpected,
    lun := 0, blockLen := 0, block := List.replicate 16 0 }

def CBW_LEN : Nat := 31
def CSW_LEN : Nat := 13

/-- Little-endian bytes of the `u32` CBW signature `0x43425355` ("USBC"). -/
def CBW_SIGNATURE_LE : List Nat := [0x55, 0x53, 0x42, 0x43]

/-- Little-endian bytes of the `u32` CSW signature `0x53425355` ("USBS"). -/
def CSW_SIGNATURE_LE : List Nat := [0x55, 0x53, 0x42, 0x53]

/-- Models `u32::from_le_bytes` on the first four bytes of a list. -/
def u32FromLe (l : List Nat) : Nat :=
  l.getD 0 0 + 256 * l.getD 1 0 + 65536 * l.getD 2 0 + 16777216 * l.getD 3 0

/-- Models `u32::to_le_bytes`. -/
def u32ToLe (n : Nat) : List Nat :=
  [n % 256, n / 256 % 256, n / 65536 % 256, n / 16777216 % 256]

/-- Models `CommandBlockWrapper::from_le_bytes`: `value` is the 27-byte CBW
tail after the signature; rejects a command-block length outside `[1,16]`,
extracts the fields at their fixed offsets, forces direction `NotExpected`
when the data-transfer length is zero. The `Unit` error is `InvalidCbwError`. -/
def CommandBlockWrapper.fromLeBytes (value : List Nat) :
    Except Unit CommandBlockWrapper :=
  let blockLen := value.getD 10 0
  if ¬(1 ≤ blockLen ∧ blockLen ≤ 16) then .error ()
  else .ok
    { tag := u32FromLe value,
      dataTransferLen := u32FromLe (value.drop 4),
      direction :=
        if u32FromLe (value.drop 4) ≠ 0 then
          if 0 < (value.getD 8 0) &&& 128 then .dirIn else .dirOut
        else .notExpected,
      lun := (value.getD 9 0) &&& 15,
      blockLen := blockLen,
      block := (value.drop 11).take 16 }

/-- Bulk Only Transport instance state (`BulkOnly` of `transport/bbb.rs`);
the two endpoints are reduced to their observable stall flags, the packet
size is `in_ep.max_packet_size()` (same for both endpoints). -/
structure BulkOnly where
  buf : Buffer
  state : TState
  cbw : CommandBlockWrapper
  cs : Option CommandStatus
  maxLun : Nat
  packetSize : Nat
  inStalled : Bool
  outStalled : Bool
deriving DecidableEq, Repr

def BulkOnly.statusPresent (t : BulkOnly) : Bool := t.cs.isSome

def BulkOnly.stallInEp (t : BulkOnly) : BulkOnly := { t with inStalled := true }

def BulkOnly.stallOutEp (t : BulkOnly) : BulkOnly := { t with outStalled := true }

def BulkOnly.stallEps (t : BulkOnly) : BulkOnly := t.stallInEp.stallOutEp

/-- Models `enter_state`: entering `Idle` also cleans the buffer and resets
the CBW and the pending status. -/
def BulkOnly.enterState (t : BulkOnly) (s : TState) : BulkOnly :=
  if s = TState.idle then
    { t with buf := t.buf.clean, cbw := CommandBlockWrapper.default,
             cs := none, state := s }
  else { t with state := s }

/-- Models `Transport::reset` for `BulkOnly`: unstall both endpoints and
enter `Idle`. -/
def BulkOnly.reset (t : BulkOnly) : BulkOnly :=
  ({ t with inStalled := false, outStalled := false }).enterState .idle

/-- Models `read_packet`: fill the buffer from the OUT endpoint through
`Buffer::write_all` with the packet size as `max_count`; a bus
`WouldBlock` is mapped to a zero count, and a zero count is turned into
`Err(Usb(WouldBlock))`. `rx` is the outcome of the `out_ep.read` attempt. -/
def BulkOnly.readPacket (t : BulkOnly) (rx : Except UsbError (List Nat)) :
    BulkOnly × Except TransportError Nat :=
  match t.buf.writeAll t.packetSize (TransportError.error .ioBufferOverflow)
      (fun slice =>
        match rx with
        | .ok data => .ok (data.length, setSlice slice 0 data)
        | .error .wouldBlock => .ok (0, slice)
        | .error e => .error (TransportError.usb e)) with
  | (buf, .error e) => ({ t with buf := buf }, .error e)
  | (buf, .ok count) =>
    if count = 0 then ({ t with buf := buf }, .error (.usb .wouldBlock))
    else ({ t with buf := buf }, .ok count)

/-- Models `write_packet`: drain `min(packet_size, available_read)` bytes
of the buffer into the IN endpoint through `Buffer::read`; a bus
`WouldBlock` is mapped to a zero count, and a zero count is turned into
`Err(Usb(WouldBlock))`. `tx` is the outcome of the `in_ep.write` attempt;
the middle component lists the packets the bus accepted. -/
def BulkOnly.writePacket (t : BulkOnly) (tx : Except UsbError Unit) :
    BulkOnly × List (List Nat) × Except TransportError Nat :=
  let sent :=
    match tx with
    | .ok _ =>
      if t.buf.readableSlice.length ≠ 0 then
        [t.buf.readableSlice.take (min t.packetSize t.buf.readableSlice.length)]
      else []
    | .error _ => []
  match t.buf.read (fun buf =>
      if buf.length ≠ 0 then
        match tx with
        | .ok _ => .ok (min t.packetSize buf.length)
        | .error .wouldBlock => .ok 0
        | .error e => .error (TransportError.usb e)
      else .ok 0) with
  | (buf, .error e) => ({ t with buf := buf }, sent, .error e)
  | (buf, .ok count) =>
    if count = 0 then ({ t with buf := buf }, [], .error (.usb .wouldBlock))
    else ({ t with buf := buf }, sent, .ok count)

/-- Models `build_csw`: signature, tag (LE), data residue (LE), status byte. -/
def BulkOnly.buildCsw (t : BulkOnly) : Option (List Nat) :=
  t.cs.map (fun status =>
    CSW_SIGNATURE_LE ++ u32ToLe t.cbw.tag ++ u32ToLe t.cbw.dataTransferLen
      ++ [status.toByte])

/-- Models `handle_write_csw`: write one packet, and enter `Idle` once the
buffer is fully drained. -/
def BulkOnly.handleWriteCsw (t : BulkOnly) (tx : Except UsbError Unit) :
    BulkOnly × List (List Nat) × Option TransportError :=
  match t.writePacket tx with
  | (t, sent, .error e) => (t, sent, some e)
  | (t, sent, .ok _) =>
    if t.buf.availableRead = 0 then (t.enterState .idle, sent, none)
    else (t, sent, none)

/-- Models `end_data_transfer`: stall the data endpoint when residue is
non-zero (spec. 6.7.2/6.7.3), write the CSW into the cleaned buffer, enter
`StatusTransfer` and flush; the `self.write()` flush dispatches to
`handle_write_csw` because the state is `StatusTransfer` at that point.
The source's `build_csw().unwrap()` is total at every call site (the
status is always present there), modelled by `getD []`. -/
def BulkOnly.endDataTransfer (t : BulkOnly) (tx : Except UsbError Unit) :
    BulkOnly × List (List Nat) × Option TransportError :=
  let t :=
    if 0 < t.cbw.dataTransferLen then
      match t.state with
      | .dataTransferToHost => t.stallInEp
      | .dataTransferFromHost => t.stallOutEp
      | _ => t
    else t
  let csw := t.buildCsw.getD []
  let buf := t.buf.clean
  let buf := (buf.write csw).2
  let t := { t with buf := buf }
  let t := t.enterState .statusTransfer
  t.handleWriteCsw tx

/-- Models `check_end_data_transfer`: when a status is latched, end the
transfer immediately in `DataTransferNoData`, or once the buffer is
drained in the two data-transfer states. -/
def BulkOnly.checkEndDataTransfer (t : BulkOnly) (tx : Except UsbError Unit) :
    BulkOnly × List (List Nat) × Option TransportError :=
  if t.statusPresent then
    match t.state with
    | .dataTransferNoData => t.endDataTransfer tx
    | .dataTransferFromHost =>
      if t.buf.availableRead = 0 then t.endDataTransfer tx else (t, [], none)
    | .dataTransferToHost =>
      if t.buf.availableRead = 0 then t.endDataTransfer tx else (t, [], none)
    | _ => (t, [], none)
  else (t, [], none)

/-- Models `handle_read_from_host`: unless a status is latched, read one
packet and decrement the data residue by the byte count (saturating);
then check for end of transfer. -/
def BulkOnly.handleReadFromHost (t : BulkOnly) (rx : Except UsbError (List Nat))
    (tx : Except UsbError Unit) :
    BulkOnly × List (List Nat) × Option TransportError :=
  if ¬ t.statusPresent then
    match t.readPacket rx with
    | (t, .error e) => (t, [], some e)
    | (t, .ok count) =>
      let t := { t with cbw :=
        { t.cbw with dataTransferLen := t.cbw.dataTransferLen - count } }
      t.checkEndDataTransfer tx
  else t.checkEndDataTransfer tx

/-- Models `handle_write_to_host`: if a full packet is expected (residue at
least one packet and no status latched) but the buffer holds less than a
packet, fail with `FullPacketExpected`; otherwise send a packet if the
buffer is non-empty, decrement the residue by the byte count (saturating)
and check for end of transfer. -/
def BulkOnly.handleWriteToHost (t : BulkOnly) (tx : Except UsbError Unit) :
    BulkOnly × List (List Nat) × Option TransportError :=
  let maxPacketSize := t.packetSize
  let fullPacketExpectedB : Bool :=
    decide (maxPacketSize ≤ t.cbw.dataTransferLen) && ! t.statusPresent
  let fullPacket : Bool := decide (maxPacketSize ≤ t.buf.availableRead)
  let fullPacketOrZero := fullPacket || ! fullPacketExpectedB
  if fullPacketOrZero then
    if 0 < t.buf.availableRead then
      match t.writePacket tx with
      | (t, sent, .error e) => (t, sent, some e)
      | (t, sent, .ok count) =>
        let t := { t with cbw :=
          { t.cbw with dataTransferLen := t.cbw.dataTransferLen - count } }
        match t.checkEndDataTransfer tx with
        | (t, sent2, r) => (t, sent ++ sent2, r)
    else t.checkEndDataTransfer tx
  else (t, [], some (.error .fullPacketExpected))

/-- Models `handle_no_data_transfer`. -/
def BulkOnly.handleNoDataTransfer (t : BulkOnly) (tx : Except UsbError Unit) :
    BulkOnly × List (List Nat) × Option TransportError :=
  t.checkEndDataTransfer tx

/-- Models `try_parse_cbw`: copy the first `CBW_LEN` bytes of the unread
region out of the buffer (advancing the read cursor by `CBW_LEN` through
`Buffer::read`), check the signature and parse the tail. -/
def BulkOnly.tryParseCbw (t : BulkOnly) :
    BulkOnly × Except Unit CommandBlockWrapper :=
  let raw := t.buf.readableSlice.take CBW_LEN
  let buf := (t.buf.read (fun _ => (Except.ok CBW_LEN : Except Unit Nat))).1
  let t := { t with buf := buf }
  if raw.take 4 = CBW_SIGNATURE_LE then (t, CommandBlockWrapper.fromLeBytes (raw.drop 4))
  else (t, .error ())

/-- Models `start_data_transfer`: enter the data-transfer state matching
the CBW direction; a `NotExpected` direction forces the residue to zero. -/
def BulkOnly.startDataTransfer (t : BulkOnly) (cbw : CommandBlockWrapper) :
    BulkOnly :=
  match cbw.direction with
  | .dirOut => { t.enterState .dataTransferFromHost with cbw := cbw }
  | .dirIn => { t.enterState .dataTransferToHost with cbw := cbw }
  | .notExpected =>
    { t.enterState .dataTransferNoData with
      cbw := { cbw with dataTransferLen := 0 } }

/-- Models `handle_read_cbw`: read a packet; once at least `CBW_LEN` bytes
are buffered, parse the CBW and start a data transfer, or — per the
source's invalid-CBW path (spec. 6.6.1) — stall both endpoints and call
`Transport::reset` (which unstalls them again and enters `Idle`); with
fewer bytes, stay collecting in `CommandTransfer`. -/
def BulkOnly.handleReadCbw (t : BulkOnly) (rx : Except UsbError (List Nat)) :
    BulkOnly × Option TransportError :=
  match t.readPacket rx with
  | (t, .error e) => (t, some e)
  | (t, .ok _) =>
    if CBW_LEN ≤ t.buf.availableRead then
      match t.tryParseCbw with
      | (t, .ok cbw) => (t.startDataTransfer cbw, none)
      | (t, .error _) => (t.stallEps.reset, none)
    else (t.enterState .commandTransfer, none)

/-- Models `BulkOnly::read`, dispatching on the current state. -/
def BulkOnly.read (t : BulkOnly) (rx : Except UsbError (List Nat))
    (tx : Except UsbError Unit) :
    BulkOnly × List (List Nat) × Option TransportError :=
  match t.state with
  | .idle | .commandTransfer =>
    match t.handleReadCbw rx with
    | (t, r) => (t, [], r)
  | .dataTransferFromHost => t.handleReadFromHost rx tx
  | _ => (t, [], none)

/-- Models `BulkOnly::write`, dispatching on the current state. -/
def BulkOnly.write (t : BulkOnly) (tx : Except UsbError Unit) :
    BulkOnly × List (List Nat) × Option TransportError :=
  match t.state with
  | .statusTransfer => t.handleWriteCsw tx
  | .dataTransferToHost => t.handleWriteToHost tx
  | .dataTransferNoData => t.handleNoDataTransfer tx
  | _ => (t, [], none)

/-- Models `set_status`: latch the status with no state check; for
`Failed`/`PhaseError` immediately run `end_data_transfer().unwrap()` —
`none` is the panic of that `unwrap` when the flush fails. -/
def BulkOnly.setStatus (t : BulkOnly) (status : CommandStatus)
    (tx : Except UsbError Unit) : Option (BulkOnly × List (List Nat)) :=
  let t := { t with cs := some status }
  match status with
  | .phaseError | .failed =>
    match t.endDataTransfer tx with
    | (t, sent, none) => some (t, sent)
    | (_, _, some _) => none
  | .passed => some (t, [])

/-- Models `write_data`: refuse with `InvalidState` outside
`DataTransferToHost` or once a status is latched; otherwise buffer
`min(src.len, data_transfer_len)` bytes. -/
def BulkOnly.writeData (t : BulkOnly) (src : List Nat) :
    BulkOnly × Except TransportError Nat :=
  if t.state ≠ TState.dataTransferToHost then
    (t, .error (.error .invalidState))
  else if ¬ t.statusPresent then
    let wr := t.buf.write (src.take (min src.length t.cbw.dataTransferLen))
    ({ t with buf := wr.2 }, .ok wr.1)
  else (t, .error (.error .invalidState))

/-- Models `try_write_data_all`: refuse with `InvalidState` outside
`DataTransferToHost` or once a status is latched; otherwise write all of
`src` through `Buffer::write_all` (overflow error if it cannot fit). -/
def BulkOnly.tryWriteDataAll (t : BulkOnly) (src : List Nat) :
    BulkOnly × Except TransportError Unit :=
  if t.state ≠ TState.dataTransferToHost then
    (t, .error (.error .invalidState))
  else if ¬ t.statusPresent then
    match t.buf.writeAll src.length (TransportError.error .ioBufferOverflow)
        (fun slice => .ok (src.length, setSlice slice 0 src)) with
    | (buf, .error e) => ({ t with buf := buf }, .error e)
    | (buf, .ok _) => ({ t with buf := buf }, .ok ())
  else (t, .error (.error .invalidState))

/-- Models `get_command`: the truncated command block and LUN, absent in
`Idle`/`CommandTransfer`. -/
def BulkOnly.getCommand (t : BulkOnly) : Option (List Nat × Nat) :=
  match t.state with
  | .idle | .commandTransfer => none
  | _ => some (t.cbw.block.take t.cbw.blockLen, t.cbw.lun)

def BulkOnly.hasStatus (t : BulkOnly) : Bool := t.statusPresent

/-- Models the `map_ignore` helper of `Scsi::poll`: `Ok`, transport-level
errors and `WouldBlock` are swallowed, other USB errors propagate. -/
def mapIgnore : Option TransportError → Option UsbError
  | none => none
  | some (.usb .wouldBlock) => none
  | some (.error _) => none
  | some (.usb e) => some e

/-- How a `Scsi::poll` run ended: normally, with a propagated USB error,
or with the loop fuel exhausted (the source loop is unbounded). -/
inductive LoopExit where
  | done
  | usbErr (e : UsbError)
  | fuelOut
deriving DecidableEq, Repr

/-- Models the inner loop of `Scsi::poll`: invoke the callback, then
`transport.write()`; on `FullPacketExpected` loop back to the callback,
on a propagating USB error return it, otherwise `transport.read()` once
and break. The callback stands for the user's command handling acting on
the transport; the returned `Nat` counts its invocations. -/
def pollLoop (cb : BulkOnly → BulkOnly) (tx : Except UsbError Unit)
    (rx : Except UsbError (List Nat)) :
    Nat → BulkOnly → BulkOnly × Nat × LoopExit
  | 0, t => (t, 0, .fuelOut)
  | fuel + 1, t =>
    let t := cb t
    match t.write tx with
    | (t, _, some (.error .fullPacketExpected)) =>
      match pollLoop cb tx rx fuel t with
      | (t, n, ex) => (t, n + 1, ex)
    | (t, _, some (.usb (.other code))) => (t, 1, .usbErr (.other code))
    | (t, _, _) =>
      match t.read rx tx with
      | (t, _, r) =>
        match mapIgnore r with
        | some e => (t, 1, .usbErr e)
        | none => (t, 1, .done)

/-- Models `Scsi::poll`: drive `read` then `write` once (ignoring
transport errors and `WouldBlock`), then run the inner loop only when a
command is present and no status is latched yet. -/
def scsiPoll (cb : BulkOnly → BulkOnly) (tx : Except UsbError Unit)
    (rx : Except UsbError (List Nat)) (fuel : Nat) (t : BulkOnly) :
    BulkOnly × Nat × LoopExit :=
  match t.read rx tx with
  | (t, _, r1) =>
    match mapIgnore r1 with
    | some e => (t, 0, .usbErr e)
    | none =>
      match t.write tx with
      | (t, _, r2) =>
        match mapIgnore r2 with
        | some e => (t, 0, .usbErr e)
        | none =>
          match t.getCommand with
          | none => (t, 0, .done)
          | some _ =>
            if t.hasStatus then (t, 0, .done)
            else pollLoop cb tx rx fuel t

/-! Concrete fixtures: a freshly constructed transport as produced by
`BulkOnly::new` with `packet_size = 32`, `max_lun = 0` and a 64-byte IO
buffer, and concrete wire inputs. -/

def testBuf : Buffer := { inner := List.replicate 64 0, rpos := 0, wpos := 0 }

def t0 : BulkOnly :=
  { buf := testBuf, state := .idle, cbw := CommandBlockWrapper.default,
    cs := none, maxLun := 0, packetSize := 32,
    inStalled := false, outStalled := false }

/-- A 31-byte CBW whose first four bytes differ from the "USBC" signature. -/
def badSigCbwBytes : List Nat := [1, 2, 3, 4] ++ List.replicate 27 0

/-- A valid 31-byte CBW: tag 1, data-transfer length 16, direction Out
(flags bit 7 clear), LUN 5, command-block length 6. -/
def lun5CbwBytes : List Nat :=
  CBW_SIGNATURE_LE ++ [1, 0, 0, 0] ++ [16, 0, 0, 0] ++ [0] ++ [5] ++ [6]
    ++ List.replicate 16 0

/-- A valid 31-byte CBW: tag 2, data-transfer length 64, direction In
(flags bit 7 set), LUN 0, command-block length 10. -/
def inCbwBytes : List Nat :=
  CBW_SIGNATURE_LE ++ [2, 0, 0, 0] ++ [64, 0, 0, 0] ++ [128] ++ [0] ++ [10]
    ++ List.replicate 16 0

/-- The parse of `lun5CbwBytes`: tag 1, 16 bytes host-to-device, LUN 5. -/
def cbw5 : CommandBlockWrapper :=
  { tag := 1, dataTransferLen := 16, direction := .dirOut,
    lun := 5, blockLen := 6, block := List.replicate 16 0 }

/-- A 10-byte buffer fixture for `Buffer::write_all`. -/
def b9 : Buffer := { inner := List.replicate 10 0, rpos := 0, wpos := 0 }

/-- A fill closure that reports writing 7 bytes. -/
def f9 : List Nat → Except Unit (Nat × List Nat) := fun s => .ok (7, s)

/-- `t0` moved into a device-to-host data phase with 40 bytes expected. -/
def t5 : BulkOnly :=
  { t0 with state := .dataTransferToHost,
            cbw := { CommandBlockWrapper.default with dataTransferLen := 40 } }

/-- `t0` in a device-to-host data phase with a latched `Passed` status. -/
def t5s : BulkOnly :=
  { t0 with state := .dataTransferToHost, cs := some .passed }

/-- `t0` in a device-to-host data phase with a latched `Passed` status,
40 buffered bytes (more than one packet) and residue 100. -/
def t5d : BulkOnly :=
  { t0 with state := .dataTransferToHost, cs := some .passed,
            cbw := { CommandBlockWrapper.default with dataTransferLen := 100 },
            buf := { testBuf with wpos := 40 } }

/-- `t0` in a device-to-host data phase with a latched `Passed` status,
5 buffered bytes (a final short packet) and residue 5. -/
def t5e : BulkOnly :=
  { t0 with state := .dataTransferToHost, cs := some .passed,
            cbw := { CommandBlockWrapper.default with dataTransferLen := 5 },
            buf := { testBuf with wpos := 5 } }

/-- `t0` moved into a host-to-device data phase with 100 bytes expected. -/
def tA : BulkOnly :=
  { t0 with state := .dataTransferFromHost,
            cbw := { CommandBlockWrapper.default with dataTransferLen := 100 } }

/-- A callback that performs no transport action. -/
def cbId : BulkOnly → BulkOnly := fun t => t

/-! Helper lemmas about the buffer model. -/

theorem setSlice_length (l : List Nat) (pos : Nat) (data : List Nat) :
    (setSlice l pos data).length = l.length := by
  simp only [setSlice, List.length_append, List.length_take, List.length_drop]
  omega

theorem Buffer.shift_inner_length (b : Buffer) :
    b.shift.inner.length = b.inner.length := by
  unfold Buffer.shift Buffer.clean
  split <;> simp [setSlice_length]

theorem Buffer.availableWrite_le_shift (b : Buffer) :
    b.availableWrite ≤ b.shift.availableWrite := by
  unfold Buffer.shift Buffer.clean Buffer.availableWrite
  split <;> simp [setSlice_length] <;> omega

theorem Buffer.shift_wpos_le (b : Buffer) (h : b.wpos ≤ b.inner.length) :
    b.shift.wpos ≤ b.shift.inner.length := by
  unfold Buffer.shift Buffer.clean
  split <;> simp [setSlice_length] <;> omega

theorem Buffer.read_inner {E : Type} (b : Buffer) (f : List Nat → Except E Nat) :
    (b.read f).1.inner = b.inner := by
  unfold Buffer.read
  split <;> rfl

theorem Buffer.read_wpos {E : Type} (b : Buffer) (f : List Nat → Except E Nat) :
    (b.read f).1.wpos = b.wpos := by
  unfold Buffer.read
  split <;> rfl

/-- C7: every CSW built by the transport is exactly 13 bytes — the
little-endian "USBS" signature at offset 0, the current CBW's tag
(little-endian, copied unchanged) at offset 4, the data residue
(little-endian) at offset 8 and the status byte (0, 1 or 2) at offset 12;
in particular decoding bytes 4..8 recovers `CBW.tag`. -/
theorem c7_csw_layout (t : BulkOnly) (s : CommandStatus) :
    ({ t with cs := some s } : BulkOnly).buildCsw =
      some (CSW_SIGNATURE_LE ++ u32ToLe t.cbw.tag
        ++ u32ToLe t.cbw.dataTransferLen ++ [s.toByte]) ∧
    (CSW_SIGNATURE_LE ++ u32ToLe t.cbw.tag
        ++ u32ToLe t.cbw.dataTransferLen ++ [s.toByte]).length = CSW_LEN ∧
    (CSW_SIGNATURE_LE ++ u32ToLe t.cbw.tag
        ++ u32ToLe t.cbw.dataTransferLen ++ [s.toByte]).take 4
      = CSW_SIGNATURE_LE ∧
    ((CSW_SIGNATURE_LE ++ u32ToLe t.cbw.tag
        ++ u32ToLe t.cbw.dataTransferLen ++ [s.toByte]).drop 4).take 4
      = u32ToLe t.cbw.tag ∧
    ((CSW_SIGNATURE_LE ++ u32ToLe t.cbw.tag
        ++ u32ToLe t.cbw.dataTransferLen ++ [s.toByte]).drop 8).take 4
      = u32ToLe t.cbw.dataTransferLen ∧
    (CSW_SIGNATURE_LE ++ u32ToLe t.cbw.tag
        ++ u32ToLe t.cbw.dataTransferLen ++ [s.toByte]).getD 12 0
      = s.toByte ∧
    s.toByte ≤ 2 ∧
    (t.cbw.tag < 4294967296 → u32FromLe (u32ToLe t.cbw.tag) = t.cbw.tag) := by
  refine ⟨rfl, ?_, ?_, ?_, ?_, ?_, ?_, ?_⟩
  · simp [CSW_SIGNATURE_LE, u32ToLe, CSW_LEN]
  · simp [CSW_SIGNATURE_LE, u32ToLe]
  · simp [CSW_SIGNATURE_LE, u32ToLe]
  · simp [CSW_SIGNATURE_LE, u32ToLe]
  · simp [CSW_SIGNATURE_LE, u32ToLe]
  · cases s <;> simp [CommandStatus.toByte]
  · intro h
    simp [u32ToLe, u32FromLe]
    omega

/-- C7 witness: the layout facts instantiated on the concrete transport
`t0` with a latched `Failed` status. -/
theorem c7_csw_layout_witness :
    ({ t0 with cs := some CommandStatus.failed } : BulkOnly).buildCsw =
      some (CSW_SIGNATURE_LE ++ u32ToLe t0.cbw.tag
        ++ u32ToLe t0.cbw.dataTransferLen ++ [CommandStatus.failed.toByte]) ∧
    t0.cbw.tag < 4294967296 ∧
    u32FromLe (u32ToLe t0.cbw.tag) = t0.cbw.tag := by
  refine ⟨(c7_csw_layout t0 .failed).1, by decide, ?_⟩
  exact (c7_csw_layout t0 .failed).2.2.2.2.2.2.2 (by decide)

/-- C9 counterexample: on a 10-byte buffer with `wpos = 0`, calling
`write_all` with `max_count = 3` and a fill that returns 7 advances the
write cursor by 7 — more than the length 3 of the slice handed to the
fill — refuting the claim that the advance is capped at the slice length. -/
theorem c9_write_all_advance_counterexample :
    (b9.writeAll 3 () f9).2 = .ok 7 ∧
    ((b9.inner.drop b9.wpos).take 3).length = 3 ∧
    (b9.writeAll 3 () f9).1.wpos = 7 ∧
    ¬ (b9.writeAll 3 () f9).1.wpos ≤ b9.wpos + 3 := by decide

/-- C9 (amended): `write_all(max, overflow_err, fill)` returns
`overflow_err` without consulting `fill` when even after compaction
`available_write < max`; otherwise it hands `fill` a writable slice of
length exactly `max` and advances `wpos` by `min(count, cap − wpos)` —
capped at the free space to the end of the buffer (which is at least
`max`), not at `max` itself — so the cursor never moves past the end of
the buffer, but may advance by more than `max` if `fill` over-reports. -/
theorem c9_write_all_spec {E : Type} (b : Buffer) (max : Nat) (e : E)
    (c : Nat) (out : List Nat) :
    (b.shift.availableWrite < max →
      ∀ f : List Nat → Except E (Nat × List Nat),
        b.writeAll max e f = (b.shift, .error e)) ∧
    (b.availableWrite < max → ¬ b.shift.availableWrite < max →
      ∀ f : List Nat → Except E (Nat × List Nat),
        b.writeAll max e f = b.shift.writeAll max e f) ∧
    (∀ f : List Nat → Except E (Nat × List Nat),
      b.wpos ≤ b.inner.length → max ≤ b.availableWrite →
      f ((b.inner.drop b.wpos).take max) = .ok (c, out) →
      ((b.inner.drop b.wpos).take max).length = max ∧
      b.writeAll max e f =
        ({ b with inner := setSlice b.inner b.wpos (out.take max),
                  wpos := b.wpos + min c (b.inner.length - b.wpos) },
         .ok (min c (b.inner.length - b.wpos))) ∧
      b.wpos + min c (b.inner.length - b.wpos) ≤ b.inner.length) := by
  refine ⟨?_, ?_, ?_⟩
  · intro hlt f
    have hb : b.availableWrite < max :=
      lt_of_le_of_lt (Buffer.availableWrite_le_shift b) hlt
    simp only [Buffer.writeAll, if_pos hb, if_pos hlt]
  · intro hb hsh f
    simp only [Buffer.writeAll, if_pos hb, if_neg hsh]
  · intro f hwf hge hf
    have hb : ¬ b.availableWrite < max := not_lt.mpr hge
    unfold Buffer.availableWrite at hge
    refine ⟨?_, ?_, ?_⟩
    · simp only [List.length_take, List.length_drop]
      omega
    · simp only [Buffer.writeAll, if_neg hb, hf]
    · omega

/-- C9 witness: the amended specification instantiated on the concrete
10-byte buffer and the over-reporting fill `f9`. -/
theorem c9_write_all_spec_witness :
    b9.wpos ≤ b9.inner.length ∧ 3 ≤ b9.availableWrite ∧
    f9 ((b9.inner.drop b9.wpos).take 3)
      = .ok (7, (b9.inner.drop b9.wpos).take 3) ∧
    b9.writeAll 3 () f9 =
      ({ b9 with
          inner := setSlice b9.inner b9.wpos (((b9.inner.drop b9.wpos).take 3).take 3),
          wpos := b9.wpos + min 7 (b9.inner.length - b9.wpos) },
       .ok (min 7 (b9.inner.length - b9.wpos))) := by
  refine ⟨by decide, by decide, by decide, ?_⟩
  exact ((c9_write_all_spec b9 3 () 7
    ((b9.inner.drop b9.wpos).take 3)).2.2 f9 (by decide) (by decide) (by decide)).2.1

/-- C8 counterexample: with `max_lun = 0`, a syntactically valid CBW
addressing LUN 5 is parsed and accepted — `read` enters
`DataTransferFromHost` with `cbw.lun = 5 > max_lun` — refuting the claim
that accepted CBWs always satisfy `lun ≤ max_lun`. -/
theorem c8_lun_counterexample :
    (t0.read (.ok lun5CbwBytes) (.error .wouldBlock)).1.state
      = TState.dataTransferFromHost ∧
    (t0.read (.ok lun5CbwBytes) (.error .wouldBlock)).1.cbw.lun = 5 ∧
    (t0.read (.ok lun5CbwBytes) (.error .wouldBlock)).1.maxLun = 0 ∧
    ¬ (t0.read (.ok lun5CbwBytes) (.error .wouldBlock)).1.cbw.lun
        ≤ (t0.read (.ok lun5CbwBytes) (.error .wouldBlock)).1.maxLun := by
  decide

/-- C8 (amended): the parsed LUN is only the low four bits of CBW byte 13,
hence at most 15; the transport never compares it with the configured
`max_lun` — CBW acceptance is independent of `max_lun`, and the accepted
LUN is installed unchanged — so commands addressing `lun > max_lun` are
accepted as valid. -/
theorem c8_lun_spec :
    (∀ value cbw, CommandBlockWrapper.fromLeBytes value = .ok cbw →
      cbw.lun ≤ 15) ∧
    (∀ (t : BulkOnly) (m : Nat),
      ({ t with maxLun := m } : BulkOnly).tryParseCbw.2 = t.tryParseCbw.2) ∧
    (∀ (t : BulkOnly) (cbw : CommandBlockWrapper),
      (t.startDataTransfer cbw).cbw.lun = cbw.lun) := by
  refine ⟨?_, ?_, ?_⟩
  · intro value cbw h
    simp only [CommandBlockWrapper.fromLeBytes] at h
    by_cases hb : 1 ≤ value.getD 10 0 ∧ value.getD 10 0 ≤ 16
    · rw [if_neg (not_not_intro hb)] at h
      have h2 := Except.ok.inj h
      rw [← h2]
      exact Nat.and_le_right
    · rw [if_pos hb] at h
      exact Except.noConfusion h
  · intro t m
    simp only [BulkOnly.tryParseCbw]
    split <;> rfl
  · intro t cbw
    cases hd : cbw.direction <;>
      simp [BulkOnly.startDataTransfer, BulkOnly.enterState, hd]

/-- C8 witness: the amended facts instantiated on the LUN-5 CBW. -/
theorem c8_lun_spec_witness :
    CommandBlockWrapper.fromLeBytes (lun5CbwBytes.drop 4) = .ok cbw5 ∧
    cbw5.lun ≤ 15 := by
  refine ⟨by decide, ?_⟩
  exact c8_lun_spec.1 (lun5CbwBytes.drop 4) cbw5 (by decide)

/-- C2: evaluation of `read` on a 31-byte CBW whose first four bytes are
not the "USBC" signature. The invalid-CBW path runs `stall_eps()` and then
`self.reset()`, and `Transport::reset` unstalls both endpoints again — so
the call returns with the state machine in `Idle`, the CBW, pending
status and IO buffer cleared and no CSW emitted, but with both endpoints
left UNSTALLED, contrary to the spec. 6.6.1 behaviour the claim (and the
source's own comment) call for. -/
theorem c2_invalid_cbw_eval :
    (t0.read (.ok badSigCbwBytes) (.error .wouldBlock)).2.2 = none ∧
    (t0.read (.ok badSigCbwBytes) (.error .wouldBlock)).2.1 = [] ∧
    (t0.read (.ok badSigCbwBytes) (.error .wouldBlock)).1.state = TState.idle ∧
    (t0.read (.ok badSigCbwBytes) (.error .wouldBlock)).1.cbw
      = CommandBlockWrapper.default ∧
    (t0.read (.ok badSigCbwBytes) (.error .wouldBlock)).1.cs = none ∧
    (t0.read (.ok badSigCbwBytes) (.error .wouldBlock)).1.buf.availableRead = 0 ∧
    (t0.read (.ok badSigCbwBytes) (.error .wouldBlock)).1.inStalled = false ∧
    (t0.read (.ok badSigCbwBytes) (.error .wouldBlock)).1.outStalled = false := by
  decide

theorem BulkOnly.writePacket_err (t : BulkOnly) (e : UsbError) :
    ∃ t' err, t.writePacket (.error e) = (t', [], .error err) := by
  cases e <;>
    by_cases hs : t.buf.readableSlice.length ≠ 0 <;>
      simp [BulkOnly.writePacket, Buffer.read, hs]

theorem BulkOnly.handleWriteCsw_err (t : BulkOnly) (e : UsbError) :
    ∃ t' err, t.handleWriteCsw (.error e) = (t', [], some err) := by
  obtain ⟨t', err, h⟩ := BulkOnly.writePacket_err t e
  unfold BulkOnly.handleWriteCsw
  rw [h]
  exact ⟨t', err, rfl⟩

theorem BulkOnly.endDataTransfer_err (t : BulkOnly) (e : UsbError) :
    ∃ t' err, t.endDataTransfer (.error e) = (t', [], some err) := by
  unfold BulkOnly.endDataTransfer
  exact BulkOnly.handleWriteCsw_err _ e

/-- C10: `set_status` checks no precondition and reports no error — with
`Passed` it simply latches the status, in every transport state including
`Idle`; with `Failed` or `PhaseError` it immediately runs
`end_data_transfer().unwrap()`, and whenever the flush of the CSW hits a
USB fault — or the IN endpoint answers `WouldBlock` — that unwrap panics
(`none` in the model) instead of reporting the error. -/
theorem c10_set_status_spec :
    (∀ (t : BulkOnly) (tx : Except UsbError Unit),
      t.setStatus .passed tx = some ({ t with cs := some .passed }, [])) ∧
    (∀ (t : BulkOnly) (e : UsbError),
      t.setStatus .failed (.error e) = none) ∧
    (∀ (t : BulkOnly) (e : UsbError),
      t.setStatus .phaseError (.error e) = none) := by
  refine ⟨?_, ?_, ?_⟩
  · intro t tx
    rfl
  · intro t e
    obtain ⟨t', err, h⟩ :=
      BulkOnly.endDataTransfer_err { t with cs := some .failed } e
    have hs : t.setStatus .failed (.error e) =
        (match ({ t with cs := some CommandStatus.failed } : BulkOnly).endDataTransfer
            (.error e) with
         | (t, sent, none) => some (t, sent)
         | (_, _, some _) => none) := rfl
    rw [hs, h]
  · intro t e
    obtain ⟨t', err, h⟩ :=
      BulkOnly.endDataTransfer_err { t with cs := some .phaseError } e
    have hs : t.setStatus .phaseError (.error e) =
        (match ({ t with cs := some CommandStatus.phaseError } : BulkOnly).endDataTransfer
            (.error e) with
         | (t, sent, none) => some (t, sent)
         | (_, _, some _) => none) := rfl
    rw [hs, h]

theorem getD_drop_nat (l : List Nat) (n i d : Nat) :
    (l.drop n).getD i d = l.getD (n + i) d := by
  simp [List.getD, List.getElem?_drop]

/-- C4: CBW parsing over any 31-byte input staged in the IO buffer — it
fails with `InvalidCbw` exactly when the signature mismatches or the
command-block length byte (offset 14) is outside `[1,16]`; on success the
tag is the little-endian word at bytes 4..8, the data-transfer length the
word at bytes 8..12, the LUN the low four bits of byte 13 and the command
block bytes 15..31; a zero data-transfer length forces the direction to
`NotExpected` regardless of bit 7 of the flags byte, and
`start_data_transfer` then enters `DataTransferNoData` with the residue
forced to zero. -/
theorem c4_cbw_parse (t : BulkOnly) (raw : List Nat) (hlen : raw.length = 31) :
    ((¬ (raw.take 4 = CBW_SIGNATURE_LE ∧
          1 ≤ raw.getD 14 0 ∧ raw.getD 14 0 ≤ 16)) →
      ({ t with buf := { inner := raw, rpos := 0, wpos := 31 } }
        : BulkOnly).tryParseCbw.2 = .error ()) ∧
    (raw.take 4 = CBW_SIGNATURE_LE → 1 ≤ raw.getD 14 0 → raw.getD 14 0 ≤ 16 →
      ({ t with buf := { inner := raw, rpos := 0, wpos := 31 } }
        : BulkOnly).tryParseCbw.2 = .ok
          { tag := u32FromLe (raw.drop 4),
            dataTransferLen := u32FromLe (raw.drop 8),
            direction :=
              if u32FromLe (raw.drop 8) ≠ 0 then
                if 0 < raw.getD 12 0 &&& 128 then .dirIn else .dirOut
              else .notExpected,
            lun := raw.getD 13 0 &&& 15,
            blockLen := raw.getD 14 0,
            block := (raw.drop 15).take 16 }) ∧
    (∀ value cbw, CommandBlockWrapper.fromLeBytes value = .ok cbw →
      cbw.dataTransferLen = 0 → cbw.direction = .notExpected) ∧
    (∀ (t2 : BulkOnly) (cbw : CommandBlockWrapper),
      cbw.direction = .notExpected →
      t2.startDataTransfer cbw =
        { (t2.enterState .dataTransferNoData) with
            cbw := { cbw with dataTransferLen := 0 } }) := by
  have htake : raw.take 31 = raw := by
    rw [← hlen]
    exact List.take_length raw
  have h2 : ({ t with buf := { inner := raw, rpos := 0, wpos := 31 } }
      : BulkOnly).tryParseCbw.2 =
      (if raw.take 4 = CBW_SIGNATURE_LE
       then CommandBlockWrapper.fromLeBytes (raw.drop 4) else .error ()) := by
    by_cases hsig : raw.take 4 = CBW_SIGNATURE_LE
    · simp [BulkOnly.tryParseCbw, Buffer.readableSlice, Buffer.availableRead,
        CBW_LEN, htake, hsig]
    · simp [BulkOnly.tryParseCbw, Buffer.readableSlice, Buffer.availableRead,
        CBW_LEN, htake, hsig]
  have hbl : (raw.drop 4).getD 10 0 = raw.getD 14 0 := by
    rw [getD_drop_nat]
  refine ⟨?_, ?_, ?_, ?_⟩
  · intro hno
    rw [h2]
    by_cases hsig : raw.take 4 = CBW_SIGNATURE_LE
    · rw [if_pos hsig]
      unfold CommandBlockWrapper.fromLeBytes
      rw [if_pos]
      rw [hbl]
      intro hcontra
      exact hno ⟨hsig, hcontra⟩
    · rw [if_neg hsig]
  · intro hsig h1 h16
    rw [h2, if_pos hsig]
    unfold CommandBlockWrapper.fromLeBytes
    rw [if_neg (not_not_intro ⟨by rw [hbl]; exact h1, by rw [hbl]; exact h16⟩)]
    simp [getD_drop_nat, List.drop_drop]
  · intro value cbw h hdtl
    simp only [CommandBlockWrapper.fromLeBytes] at h
    by_cases hb : 1 ≤ value.getD 10 0 ∧ value.getD 10 0 ≤ 16
    · rw [if_neg (not_not_intro hb)] at h
      have hc := Except.ok.inj h
      rw [← hc] at hdtl
      rw [← hc]
      show (if u32FromLe (value.drop 4) ≠ 0 then
          if 0 < (value.getD 8 0) &&& 128 then DataDirection.dirIn
          else DataDirection.dirOut
        else DataDirection.notExpected) = DataDirection.notExpected
      rw [if_neg (not_not_intro hdtl)]
    · rw [if_pos hb] at h
      exact Except.noConfusion h
  · intro t2 cbw hd
    simp [BulkOnly.startDataTransfer, hd]

/-- C4 witness: the parse characterization instantiated on the concrete
valid CBW `lun5CbwBytes`. -/
theorem c4_cbw_parse_witness :
    lun5CbwBytes.length = 31 ∧
    lun5CbwBytes.take 4 = CBW_SIGNATURE_LE ∧
    1 ≤ lun5CbwBytes.getD 14 0 ∧ lun5CbwBytes.getD 14 0 ≤ 16 ∧
    ({ t0 with buf := { inner := lun5CbwBytes, rpos := 0, wpos := 31 } }
      : BulkOnly).tryParseCbw.2 = .ok
        { tag := u32FromLe (lun5CbwBytes.drop 4),
          dataTransferLen := u32FromLe (lun5CbwBytes.drop 8),
          direction :=
            if u32FromLe (lun5CbwBytes.drop 8) ≠ 0 then
              if 0 < lun5CbwBytes.getD 12 0 &&& 128 then .dirIn else .dirOut
            else .notExpected,
          lun := lun5CbwBytes.getD 13 0 &&& 15,
          blockLen := lun5CbwBytes.getD 14 0,
          block := (lun5CbwBytes.drop 15).take 16 } := by
  refine ⟨by decide, by decide, by decide, by decide, ?_⟩
  exact (c4_cbw_parse t0 lun5CbwBytes (by decide)).2.1
    (by decide) (by decide) (by decide)

theorem Buffer.write_count_le (b : Buffer) (d : List Nat) :
    (b.write d).1 ≤ d.length := Nat.min_le_right _ _

theorem Buffer.write_count_full (b : Buffer) (d : List Nat)
    (h : (b.write d).1 < d.length) : (b.write d).2.availableWrite = 0 := by
  unfold Buffer.write at h ⊢
  set b2 := if b.availableWrite < d.length then b.shift else b with hb2
  simp only [] at h ⊢
  unfold Buffer.availableWrite at h ⊢
  simp only [setSlice_length]
  omega

/-- C5: `write_data` called outside `DataTransferToHost`, and `write_data`
or `try_write_data_all` called once any status has been latched, return
`InvalidState` and leave the transport (hence the buffer) unchanged; in
`DataTransferToHost` with no status latched, `write_data` buffers
`min(src.len, data_transfer_len)` bytes — possibly fewer only when the
buffer is full (no write space left afterwards) — and returns the count. -/
theorem c5_write_data_spec :
    (∀ (t : BulkOnly) (src : List Nat), t.state ≠ TState.dataTransferToHost →
      t.writeData src = (t, .error (.error .invalidState)) ∧
      t.tryWriteDataAll src = (t, .error (.error .invalidState))) ∧
    (∀ (t : BulkOnly) (src : List Nat) (s : CommandStatus), t.cs = some s →
      t.writeData src = (t, .error (.error .invalidState)) ∧
      t.tryWriteDataAll src = (t, .error (.error .invalidState))) ∧
    (∀ (t : BulkOnly) (src : List Nat),
      t.state = TState.dataTransferToHost → t.cs = none →
      t.writeData src =
        ({ t with buf :=
            (t.buf.write (src.take (min src.length t.cbw.dataTransferLen))).2 },
         .ok (t.buf.write (src.take (min src.length t.cbw.dataTransferLen))).1) ∧
      (t.buf.write (src.take (min src.length t.cbw.dataTransferLen))).1
        ≤ min src.length t.cbw.dataTransferLen ∧
      ((t.buf.write (src.take (min src.length t.cbw.dataTransferLen))).1
          < min src.length t.cbw.dataTransferLen →
        (t.buf.write
          (src.take (min src.length t.cbw.dataTransferLen))).2.availableWrite
          = 0)) := by
  refine ⟨?_, ?_, ?_⟩
  · intro t src h
    constructor
    · simp [BulkOnly.writeData, h]
    · simp [BulkOnly.tryWriteDataAll, h]
  · intro t src s hcs
    by_cases hst : t.state = TState.dataTransferToHost
    · constructor
      · simp [BulkOnly.writeData, BulkOnly.statusPresent, hst, hcs]
      · simp [BulkOnly.tryWriteDataAll, BulkOnly.statusPresent, hst, hcs]
    · constructor
      · simp [BulkOnly.writeData, hst]
      · simp [BulkOnly.tryWriteDataAll, hst]
  · intro t src hst hcs
    refine ⟨?_, ?_, ?_⟩
    · simp [BulkOnly.writeData, BulkOnly.statusPresent, hst, hcs]
    · calc (t.buf.write (src.take (min src.length t.cbw.dataTransferLen))).1
          ≤ (src.take (min src.length t.cbw.dataTransferLen)).length :=
            Buffer.write_count_le _ _
        _ ≤ min src.length t.cbw.dataTransferLen := by
            simp [List.length_take]
    · intro hlt
      apply Buffer.write_count_full
      calc (t.buf.write (src.take (min src.length t.cbw.dataTransferLen))).1
          < min src.length t.cbw.dataTransferLen := hlt
        _ = (src.take (min src.length t.cbw.dataTransferLen)).length := by
            simp [List.length_take]

/-- C5 witness: the `InvalidState` refusals instantiated on `t0` (idle)
and on `t5s` (status latched), and the success path on `t5`. -/
theorem c5_write_data_spec_witness :
    t0.state ≠ TState.dataTransferToHost ∧
    t0.writeData [1, 2, 3] = (t0, .error (.error .invalidState)) ∧
    t5s.cs = some .passed ∧
    t5s.tryWriteDataAll [1, 2, 3] = (t5s, .error (.error .invalidState)) ∧
    t5.writeData (List.replicate 10 7)
      = ({ t5 with buf := (t5.buf.write ((List.replicate 10 7).take
            (min (List.replicate 10 7).length t5.cbw.dataTransferLen))).2 },
         .ok ((t5.buf.write ((List.replicate 10 7).take
            (min (List.replicate 10 7).length t5.cbw.dataTransferLen))).1)) := by
  refine ⟨by decide, (c5_write_data_spec.1 t0 [1, 2, 3] (by decide)).1,
    rfl, (c5_write_data_spec.2.1 t5s [1, 2, 3] .passed rfl).2, ?_⟩
  exact (c5_write_data_spec.2.2 t5 (List.replicate 10 7) rfl rfl).1

theorem BulkOnly.checkEnd_noStatus (t : BulkOnly) (tx : Except UsbError Unit)
    (h : t.cs = none) : t.checkEndDataTransfer tx = (t, [], none) := by
  simp [BulkOnly.checkEndDataTransfer, BulkOnly.statusPresent, h]

theorem BulkOnly.readableSlice_length (t : BulkOnly)
    (hwf : t.buf.wpos ≤ t.buf.inner.length) :
    t.buf.readableSlice.length = t.buf.availableRead := by
  simp only [Buffer.readableSlice, List.length_take, List.length_drop,
    Buffer.availableRead]
  omega

theorem BulkOnly.writePacket_ok (t : BulkOnly) (hps : 0 < t.packetSize)
    (hwf : t.buf.wpos ≤ t.buf.inner.length) (h0 : 0 < t.buf.availableRead) :
    t.writePacket (.ok ()) =
      ({ t with buf :=
          { t.buf with rpos :=
              t.buf.rpos + min t.packetSize t.buf.availableRead } },
       [t.buf.readableSlice.take (min t.packetSize t.buf.availableRead)],
       .ok (min t.packetSize t.buf.availableRead)) := by
  have hlen : t.buf.readableSlice.length = t.buf.availableRead :=
    BulkOnly.readableSlice_length t hwf
  have hne : t.buf.readableSlice.length ≠ 0 := by omega
  have hmm : min (min t.packetSize t.buf.availableRead) t.buf.availableRead
      = min t.packetSize t.buf.availableRead := by omega
  have hc0 : ¬ (min t.packetSize t.buf.availableRead = 0) := by omega
  have ha0 : ¬ (t.buf.availableRead = 0) := by omega
  simp [BulkOnly.writePacket, Buffer.read, hne, hlen, hmm, hc0, ha0]

/-- C3: in `DataTransferToHost` with no latched status and residue of at
least one packet, `write()` never emits a packet smaller than
`packet_size`; in particular when the IO buffer holds fewer than
`packet_size` bytes it returns `FullPacketExpected` and emits nothing,
leaving the transport (state, buffer and residue) unchanged. -/
theorem c3_full_packet_rule (t : BulkOnly) (tx : Except UsbError Unit)
    (hst : t.state = TState.dataTransferToHost) (hcs : t.cs = none)
    (hres : t.packetSize ≤ t.cbw.dataTransferLen)
    (hps : 0 < t.packetSize)
    (hwf : t.buf.wpos ≤ t.buf.inner.length) :
    (t.buf.availableRead < t.packetSize →
      t.write tx = (t, [], some (.error .fullPacketExpected))) ∧
    ∀ p ∈ (t.write tx).2.1, p.length = t.packetSize := by
  have hw : t.write tx = t.handleWriteToHost tx := by
    unfold BulkOnly.write
    rw [hst]
  have herr : t.buf.availableRead < t.packetSize →
      t.write tx = (t, [], some (.error .fullPacketExpected)) := by
    intro har
    have hfp : ¬ (t.packetSize ≤ t.buf.availableRead) := by omega
    rw [hw]
    simp [BulkOnly.handleWriteToHost, BulkOnly.statusPresent, hcs, hres, hfp]
  refine ⟨herr, ?_⟩
  by_cases har : t.packetSize ≤ t.buf.availableRead
  · have h0 : 0 < t.buf.availableRead := by omega
    have hlen : t.buf.readableSlice.length = t.buf.availableRead :=
      BulkOnly.readableSlice_length t hwf
    cases tx with
    | error e =>
      obtain ⟨t', err, hwp⟩ := BulkOnly.writePacket_err t e
      rw [hw]
      simp [BulkOnly.handleWriteToHost, BulkOnly.statusPresent, hcs, hres,
        har, h0, hwp]
    | ok u =>
      cases u
      rw [hw]
      simp only [BulkOnly.handleWriteToHost, BulkOnly.statusPresent, hcs,
        BulkOnly.writePacket_ok t hps hwf h0]
      simp only [BulkOnly.checkEndDataTransfer, BulkOnly.statusPresent]
      simp [hres, har, h0, List.length_take, hlen]
  · rw [herr (by omega)]
    simp

theorem BulkOnly.writePacket_inner (t : BulkOnly) (tx : Except UsbError Unit) :
    (t.writePacket tx).1.buf.inner = t.buf.inner := by
  cases tx with
  | ok u =>
    simp only [BulkOnly.writePacket]
    split
    next buf e heq =>
      have h3 := congrArg
        (fun p : Buffer × Except TransportError Nat => p.1.inner) heq
      simp only [Buffer.read_inner] at h3
      simpa using h3.symm
    next buf count heq =>
      have h3 := congrArg
        (fun p : Buffer × Except TransportError Nat => p.1.inner) heq
      simp only [Buffer.read_inner] at h3
      split <;> simpa using h3.symm
  | error e0 =>
    simp only [BulkOnly.writePacket]
    split
    next buf e heq =>
      have h3 := congrArg
        (fun p : Buffer × Except TransportError Nat => p.1.inner) heq
      simp only [Buffer.read_inner] at h3
      simpa using h3.symm
    next buf count heq =>
      have h3 := congrArg
        (fun p : Buffer × Except TransportError Nat => p.1.inner) heq
      simp only [Buffer.read_inner] at h3
      split <;> simpa using h3.symm

theorem BulkOnly.handleWriteCsw_inner (t : BulkOnly) (tx : Except UsbError Unit) :
    (t.handleWriteCsw tx).1.buf.inner = t.buf.inner := by
  unfold BulkOnly.handleWriteCsw
  split
  next t2 sent e heq =>
    have h3 := congrArg
      (fun p : BulkOnly × List (List Nat) × Except TransportError Nat =>
        p.1.buf.inner) heq
    simp only [BulkOnly.writePacket_inner] at h3
    simpa using h3.symm
  next t2 sent count heq =>
    have h3 := congrArg
      (fun p : BulkOnly × List (List Nat) × Except TransportError Nat =>
        p.1.buf.inner) heq
    simp only [BulkOnly.writePacket_inner] at h3
    split <;> simp [BulkOnly.enterState, Buffer.clean] <;> exact h3.symm

theorem Buffer.clean_write_inner (b : Buffer) (d : List Nat)
    (hlen : d.length ≤ b.inner.length) :
    (b.clean.write d).2.inner = d ++ b.inner.drop d.length := by
  have hno2 : ¬ (b.inner.length < d.length) := by omega
  have hc2 : min b.inner.length d.length = d.length := by omega
  simp [Buffer.write, Buffer.clean, Buffer.availableWrite, hno2, hc2, setSlice,
    List.take_of_length_le hlen]

theorem BulkOnly.buildCsw_some (t : BulkOnly) (s : CommandStatus)
    (hcs : t.cs = some s) :
    t.buildCsw = some (CSW_SIGNATURE_LE ++ u32ToLe t.cbw.tag
      ++ u32ToLe t.cbw.dataTransferLen ++ [s.toByte]) := by
  simp [BulkOnly.buildCsw, hcs]

theorem BulkOnly.endDataTransfer_csw_aux (u : BulkOnly) (s : CommandStatus)
    (tx : Except UsbError Unit) (hcs : u.cs = some s)
    (hcap : 13 ≤ u.buf.inner.length) :
    (Prod.fst ((({ u with buf := (u.buf.clean.write (u.buildCsw.getD [])).2 }
        : BulkOnly).enterState .statusTransfer).handleWriteCsw tx)).buf.inner.take 13
    = CSW_SIGNATURE_LE ++ u32ToLe u.cbw.tag
        ++ u32ToLe u.cbw.dataTransferLen ++ [s.toByte] := by
  have hb := BulkOnly.buildCsw_some u s hcs
  have hlen13 : (CSW_SIGNATURE_LE ++ u32ToLe u.cbw.tag
      ++ u32ToLe u.cbw.dataTransferLen ++ [s.toByte]).length = 13 := by
    simp [CSW_SIGNATURE_LE, u32ToLe]
  rw [BulkOnly.handleWriteCsw_inner]
  show (u.buf.clean.write (u.buildCsw.getD [])).2.inner.take 13
    = CSW_SIGNATURE_LE ++ u32ToLe u.cbw.tag
        ++ u32ToLe u.cbw.dataTransferLen ++ [s.toByte]
  rw [hb]
  simp only [Option.getD_some]
  rw [Buffer.clean_write_inner u.buf _ (by rw [hlen13]; exact hcap)]
  exact List.take_left' hlen13

/-- The residue value held when `end_data_transfer` runs is the one
serialized into the CSW that is written into the IO buffer (bytes 8..12
little-endian), whatever the flush outcome. -/
theorem BulkOnly.endDataTransfer_csw (t : BulkOnly) (s : CommandStatus)
    (tx : Except UsbError Unit) (hcs : t.cs = some s)
    (hcap : 13 ≤ t.buf.inner.length) :
    (t.endDataTransfer tx).1.buf.inner.take 13 =
      CSW_SIGNATURE_LE ++ u32ToLe t.cbw.tag
        ++ u32ToLe t.cbw.dataTransferLen ++ [s.toByte] := by
  unfold BulkOnly.endDataTransfer
  by_cases hdtl : 0 < t.cbw.dataTransferLen
  · rw [if_pos hdtl]
    cases h2 : t.state
    · exact BulkOnly.endDataTransfer_csw_aux t s tx hcs hcap
    · exact BulkOnly.endDataTransfer_csw_aux t s tx hcs hcap
    · exact BulkOnly.endDataTransfer_csw_aux t.stallInEp s tx hcs hcap
    · exact BulkOnly.endDataTransfer_csw_aux t.stallOutEp s tx hcs hcap
    · exact BulkOnly.endDataTransfer_csw_aux t s tx hcs hcap
    · exact BulkOnly.endDataTransfer_csw_aux t s tx hcs hcap
  · rw [if_neg hdtl]
    exact BulkOnly.endDataTransfer_csw_aux t s tx hcs hcap

theorem BulkOnly.endDataTransfer_csw_of_eq {u tf : BulkOnly}
    {sent2 : List (List Nat)} {r : Option TransportError} {s : CommandStatus}
    {tx : Except UsbError Unit}
    (hend : u.endDataTransfer tx = (tf, sent2, r))
    (hcs : u.cs = some s) (hcap : 13 ≤ u.buf.inner.length) :
    tf.buf.inner.take 13 = CSW_SIGNATURE_LE ++ u32ToLe u.cbw.tag
      ++ u32ToLe u.cbw.dataTransferLen ++ [s.toByte] := by
  have h := BulkOnly.endDataTransfer_csw u s tx hcs hcap
  rw [hend] at h
  exact h

theorem Buffer.writeAll_ok_count {E : Type} (b : Buffer) (max : Nat) (e : E)
    (f : List Nat → Except E (Nat × List Nat)) (n : Nat)
    (h : (b.writeAll max e f).2 = .ok n) :
    ∃ k out,
      f (((if b.availableWrite < max then b.shift else b).inner.drop
          (if b.availableWrite < max then b.shift else b).wpos).take max)
        = .ok (k, out) ∧
      ¬ (if b.availableWrite < max then b.shift else b).availableWrite < max ∧
      n = min k ((if b.availableWrite < max then b.shift else b).inner.length
        - (if b.availableWrite < max then b.shift else b).wpos) := by
  unfold Buffer.writeAll at h
  set b2 := if b.availableWrite < max then b.shift else b with hb2
  by_cases hlt : b2.availableWrite < max
  · rw [if_pos hlt] at h
    simp at h
  · rw [if_neg hlt] at h
    cases hf : f ((b2.inner.drop b2.wpos).take max) with
    | error e2 =>
      rw [hf] at h
      simp at h
    | ok p =>
      obtain ⟨k, out⟩ := p
      rw [hf] at h
      simp at h
      exact ⟨k, out, rfl, hlt, h.symm⟩

theorem BulkOnly.readPacket_ok_count (t : BulkOnly) (d : List Nat) (c : Nat)
    (hd : d.length ≤ t.packetSize)
    (h : (t.readPacket (.ok d)).2 = .ok c) : c = d.length := by
  unfold BulkOnly.readPacket at h
  split at h
  next buf e heq => simp at h
  next buf count heq =>
    by_cases hc0 : count = 0
    · rw [if_pos hc0] at h
      simp at h
    · rw [if_neg hc0] at h
      simp at h
      obtain ⟨k, out, hf, hlt, hn⟩ :=
        Buffer.writeAll_ok_count _ _ _ _ _ (congrArg Prod.snd heq)
      simp at hf
      obtain ⟨hk, _⟩ := hf
      have hBa : (if t.buf.availableWrite < t.packetSize then t.buf.shift
          else t.buf).availableWrite
          = (if t.buf.availableWrite < t.packetSize then t.buf.shift
            else t.buf).inner.length
            - (if t.buf.availableWrite < t.packetSize then t.buf.shift
              else t.buf).wpos := rfl
      omega

theorem BulkOnly.readPacket_only_buf (t : BulkOnly)
    (rx : Except UsbError (List Nat)) :
    (t.readPacket rx).1 = { t with buf := (t.readPacket rx).1.buf } := by
  unfold BulkOnly.readPacket
  split
  next buf e heq => rfl
  next buf count heq => split <;> rfl

/-- C1: the data residue. In `DataTransferFromHost` each packet read from
the host decrements `data_transfer_len` by the packet's byte count
(`Nat` subtraction, i.e. saturating at 0); in `DataTransferToHost` each
packet written to the host decrements it by the emitted packet's byte
count — both before a status is latched and for the packets drained
after one is (a mid-drain packet decrements and the transfer continues;
the final drain packet decrements and the decremented value is what the
CSW then carries); and the value held when `end_data_transfer` runs is
the one serialized little-endian into bytes 8..12 of the CSW placed in
the IO buffer. -/
theorem c1_residue :
    (∀ (t : BulkOnly) (d : List Nat) (tx : Except UsbError Unit),
      t.state = TState.dataTransferFromHost → t.cs = none →
      d.length ≤ t.packetSize →
      (t.read (.ok d) tx).2.2 = none →
      (t.read (.ok d) tx).1.cbw.dataTransferLen
        = t.cbw.dataTransferLen - d.length) ∧
    (∀ t : BulkOnly,
      t.state = TState.dataTransferToHost → t.cs = none →
      0 < t.packetSize → t.buf.wpos ≤ t.buf.inner.length →
      0 < t.buf.availableRead →
      (t.packetSize ≤ t.buf.availableRead ∨
        t.cbw.dataTransferLen < t.packetSize) →
      (t.write (.ok ())).1.cbw.dataTransferLen
          = t.cbw.dataTransferLen - min t.packetSize t.buf.availableRead ∧
      (t.write (.ok ())).2.1
          = [t.buf.readableSlice.take (min t.packetSize t.buf.availableRead)] ∧
      (t.buf.readableSlice.take (min t.packetSize t.buf.availableRead)).length
          = min t.packetSize t.buf.availableRead) ∧
    (∀ (t : BulkOnly) (s : CommandStatus),
      t.state = TState.dataTransferToHost → t.cs = some s →
      0 < t.packetSize → t.buf.wpos ≤ t.buf.inner.length →
      t.packetSize < t.buf.availableRead →
      (t.write (.ok ())).1.cbw.dataTransferLen
          = t.cbw.dataTransferLen - min t.packetSize t.buf.availableRead ∧
      (t.write (.ok ())).2.1
          = [t.buf.readableSlice.take (min t.packetSize t.buf.availableRead)] ∧
      (t.buf.readableSlice.take (min t.packetSize t.buf.availableRead)).length
          = min t.packetSize t.buf.availableRead) ∧
    (∀ (t : BulkOnly) (s : CommandStatus),
      t.state = TState.dataTransferToHost → t.cs = some s →
      0 < t.packetSize → t.buf.wpos ≤ t.buf.inner.length →
      0 < t.buf.availableRead → t.buf.availableRead ≤ t.packetSize →
      13 ≤ t.buf.inner.length →
      min t.packetSize t.buf.availableRead = t.buf.availableRead ∧
      t.buf.readableSlice.length = t.buf.availableRead ∧
      ((t.write (.ok ())).2.1).head? = some t.buf.readableSlice ∧
      (t.write (.ok ())).1.buf.inner.take 13
        = CSW_SIGNATURE_LE ++ u32ToLe t.cbw.tag
          ++ u32ToLe (t.cbw.dataTransferLen
              - min t.packetSize t.buf.availableRead) ++ [s.toByte] ∧
      (((t.write (.ok ())).1.buf.inner.take 13).drop 8).take 4
        = u32ToLe (t.cbw.dataTransferLen
            - min t.packetSize t.buf.availableRead)) ∧
    (∀ (t : BulkOnly) (s : CommandStatus) (tx : Except UsbError Unit),
      t.cs = some s → 13 ≤ t.buf.inner.length →
      (t.endDataTransfer tx).1.buf.inner.take 13
        = CSW_SIGNATURE_LE ++ u32ToLe t.cbw.tag
          ++ u32ToLe t.cbw.dataTransferLen ++ [s.toByte] ∧
      (((t.endDataTransfer tx).1.buf.inner.take 13).drop 8).take 4
        = u32ToLe t.cbw.dataTransferLen) := by
  refine ⟨?_, ?_, ?_, ?_, ?_⟩
  · intro t d tx hst hcs hd hok
    have hdisp : t.read (.ok d) tx = t.handleReadFromHost (.ok d) tx := by
      unfold BulkOnly.read
      rw [hst]
    rw [hdisp] at hok ⊢
    unfold BulkOnly.handleReadFromHost at hok ⊢
    simp only [BulkOnly.statusPresent, hcs, Option.isSome_none,
      Bool.false_eq_true, not_false_eq_true, if_true] at hok ⊢
    rcases hrp : t.readPacket (.ok d) with ⟨tp, res⟩
    have htp := BulkOnly.readPacket_only_buf t (.ok d)
    rw [hrp] at htp
    have htp' : tp = { t with buf := tp.buf } := by simpa using htp
    cases res with
    | error e =>
      rw [hrp] at hok
      simp at hok
    | ok count =>
      have hcs2 : tp.cs = none := by
        rw [htp']
        exact hcs
      have hcount : count = d.length :=
        BulkOnly.readPacket_ok_count t d count hd (by rw [hrp])
      show (({ tp with cbw := { tp.cbw with
          dataTransferLen := tp.cbw.dataTransferLen - count } }
        : BulkOnly).checkEndDataTransfer tx).1.cbw.dataTransferLen
        = t.cbw.dataTransferLen - d.length
      rw [BulkOnly.checkEnd_noStatus ({ tp with cbw := { tp.cbw with
        dataTransferLen := tp.cbw.dataTransferLen - count } }) tx hcs2]
      have hcbw : tp.cbw = t.cbw := by
        rw [htp']
      simp [hcbw, hcount]
  · intro t hst hcs hps hwf h0 hfpz
    have hw : t.write (.ok ()) = t.handleWriteToHost (.ok ()) := by
      unfold BulkOnly.write
      rw [hst]
    have hlen : t.buf.readableSlice.length = t.buf.availableRead :=
      BulkOnly.readableSlice_length t hwf
    rw [hw]
    rcases hfpz with har | hdl
    · simp only [BulkOnly.handleWriteToHost, BulkOnly.statusPresent, hcs,
        BulkOnly.writePacket_ok t hps hwf h0]
      simp only [BulkOnly.checkEndDataTransfer, BulkOnly.statusPresent]
      simp [har, h0, List.length_take, hlen]
    · have hnd : ¬ (t.packetSize ≤ t.cbw.dataTransferLen) := by omega
      simp only [BulkOnly.handleWriteToHost, BulkOnly.statusPresent, hcs,
        BulkOnly.writePacket_ok t hps hwf h0]
      simp only [BulkOnly.checkEndDataTransfer, BulkOnly.statusPresent]
      simp [hnd, h0, List.length_take, hlen]
  · intro t s hst hcs hps hwf hlt
    have h0 : 0 < t.buf.availableRead := by omega
    have hlen : t.buf.readableSlice.length = t.buf.availableRead :=
      BulkOnly.readableSlice_length t hwf
    have hw : t.write (.ok ()) = t.handleWriteToHost (.ok ()) := by
      unfold BulkOnly.write
      rw [hst]
    have hne0 : ¬ ((({ t.buf with rpos := t.buf.rpos + min t.packetSize t.buf.availableRead } : Buffer)).availableRead = 0) := by
      simp only [Buffer.availableRead] at hlt ⊢
      omega
    rw [hw]
    simp only [BulkOnly.handleWriteToHost, BulkOnly.statusPresent, hcs,
      BulkOnly.writePacket_ok t hps hwf h0]
    simp only [BulkOnly.checkEndDataTransfer, BulkOnly.statusPresent, hcs]
    simp [hst, hne0, h0, List.length_take, hlen]
  · intro t s hst hcs hps hwf h0 hle hcap
    have hlen : t.buf.readableSlice.length = t.buf.availableRead :=
      BulkOnly.readableSlice_length t hwf
    have hmin : min t.packetSize t.buf.availableRead
        = t.buf.availableRead := by omega
    have hw : t.write (.ok ()) = t.handleWriteToHost (.ok ()) := by
      unfold BulkOnly.write
      rw [hst]
    have heq0 : (({ t.buf with rpos := t.buf.rpos + min t.packetSize t.buf.availableRead } : Buffer)).availableRead = 0 := by
      simp only [Buffer.availableRead] at hle ⊢
      omega
    refine ⟨hmin, hlen, ?_⟩
    rw [hw]
    simp only [BulkOnly.handleWriteToHost, BulkOnly.statusPresent, hcs,
      BulkOnly.writePacket_ok t hps hwf h0]
    simp only [BulkOnly.checkEndDataTransfer, BulkOnly.statusPresent, hcs]
    simp only [hst, heq0, h0, Option.isSome_some, Bool.not_true,
      Bool.and_false, Bool.not_false, Bool.or_true, eq_self_iff_true, if_true]
    have h13 :
        (({ buf := { inner := t.buf.inner, rpos := t.buf.rpos + min t.packetSize t.buf.availableRead, wpos := t.buf.wpos }, state := TState.dataTransferToHost, cbw := { tag := t.cbw.tag, dataTransferLen := t.cbw.dataTransferLen - min t.packetSize t.buf.availableRead, direction := t.cbw.direction, lun := t.cbw.lun, blockLen := t.cbw.blockLen, block := t.cbw.block }, cs := some s, maxLun := t.maxLun, packetSize := t.packetSize, inStalled := t.inStalled, outStalled := t.outStalled } : BulkOnly).endDataTransfer (Except.ok ())).1.buf.inner.take 13
          = CSW_SIGNATURE_LE ++ u32ToLe t.cbw.tag
            ++ u32ToLe (t.cbw.dataTransferLen
              - min t.packetSize t.buf.availableRead) ++ [s.toByte] :=
      BulkOnly.endDataTransfer_csw _ s (Except.ok ()) rfl hcap
    refine ⟨?_, h13, ?_⟩
    · simp [hmin, List.take_of_length_le (le_of_eq hlen)]
    · rw [h13]
      simp [CSW_SIGNATURE_LE, u32ToLe]
  · intro t s tx hcs hcap
    have h1 := BulkOnly.endDataTransfer_csw t s tx hcs hcap
    refine ⟨h1, ?_⟩
    rw [h1]
    simp [CSW_SIGNATURE_LE, u32ToLe]

/-- C1 witness: the host-to-device residue decrement instantiated on `tA`
(100 bytes expected) receiving a concrete 5-byte packet, the latched
mid-drain decrement on `t5d` (40 buffered bytes, packet size 32), and
the latched final-drain CSW residue on `t5e` (5 buffered bytes). -/
theorem c1_residue_witness :
    (tA.state = TState.dataTransferFromHost ∧ tA.cs = none ∧
     (List.replicate 5 1).length ≤ tA.packetSize ∧
     (tA.read (.ok (List.replicate 5 1)) (.error .wouldBlock)).2.2 = none ∧
     (tA.read (.ok (List.replicate 5 1))
         (.error .wouldBlock)).1.cbw.dataTransferLen
       = tA.cbw.dataTransferLen - (List.replicate 5 1).length) ∧
    (t5d.state = TState.dataTransferToHost ∧
     t5d.cs = some CommandStatus.passed ∧ 0 < t5d.packetSize ∧
     t5d.buf.wpos ≤ t5d.buf.inner.length ∧
     t5d.packetSize < t5d.buf.availableRead ∧
     (t5d.write (.ok ())).1.cbw.dataTransferLen
       = t5d.cbw.dataTransferLen
         - min t5d.packetSize t5d.buf.availableRead) ∧
    (t5e.state = TState.dataTransferToHost ∧
     t5e.cs = some CommandStatus.passed ∧ 0 < t5e.packetSize ∧
     t5e.buf.wpos ≤ t5e.buf.inner.length ∧ 0 < t5e.buf.availableRead ∧
     t5e.buf.availableRead ≤ t5e.packetSize ∧ 13 ≤ t5e.buf.inner.length ∧
     (((t5e.write (.ok ())).1.buf.inner.take 13).drop 8).take 4
       = u32ToLe (t5e.cbw.dataTransferLen
           - min t5e.packetSize t5e.buf.availableRead)) := by
  refine ⟨⟨rfl, rfl, by decide, by decide, ?_⟩,
    ⟨rfl, rfl, by decide, by decide, by decide, ?_⟩,
    ⟨rfl, rfl, by decide, by decide, by decide, by decide, by decide, ?_⟩⟩
  · exact c1_residue.1 tA (List.replicate 5 1) (.error .wouldBlock)
      rfl rfl (by decide) (by decide)
  · exact (c1_residue.2.2.1 t5d CommandStatus.passed rfl rfl
      (by decide) (by decide) (by decide)).1
  · exact (c1_residue.2.2.2.1 t5e CommandStatus.passed rfl rfl
      (by decide) (by decide) (by decide) (by decide) (by decide)).2.2.2.2

/-- C3 witness: the `FullPacketExpected` refusal instantiated on `t5`
(residue 40 ≥ packet size 32, empty IO buffer). -/
theorem c3_full_packet_rule_witness :
    t5.state = TState.dataTransferToHost ∧ t5.cs = none ∧
    t5.packetSize ≤ t5.cbw.dataTransferLen ∧ 0 < t5.packetSize ∧
    t5.buf.wpos ≤ t5.buf.inner.length ∧
    t5.buf.availableRead < t5.packetSize ∧
    t5.write (.ok ()) = (t5, [], some (.error .fullPacketExpected)) := by
  refine ⟨rfl, rfl, by decide, by decide, by decide, by decide, ?_⟩
  exact (c3_full_packet_rule t5 (.ok ()) rfl rfl (by decide) (by decide)
    (by decide)).1 (by decide)

/-- C6: one unfolding of the inner loop of `Scsi::poll`. After the
callback returns, `transport.write()` runs; the loop re-invokes the
callback exactly when that write returned `FullPacketExpected` (the
iteration count grows with the recursive call, which begins by invoking
the callback); on success, any other transport-level error, or a USB
`WouldBlock`, the loop drives `transport.read()` exactly once and exits
with one callback invocation; a propagating USB error exits immediately
without the read. -/
theorem c6_poll_loop (cb : BulkOnly → BulkOnly) (tx : Except UsbError Unit)
    (rx : Except UsbError (List Nat)) (fuel : Nat) (t : BulkOnly)
    (t2 : BulkOnly) (sent : List (List Nat)) (r : Option TransportError)
    (hw : (cb t).write tx = (t2, sent, r)) :
    (r = some (.error .fullPacketExpected) →
      pollLoop cb tx rx (fuel + 1) t =
        ((pollLoop cb tx rx fuel t2).1,
         (pollLoop cb tx rx fuel t2).2.1 + 1,
         (pollLoop cb tx rx fuel t2).2.2)) ∧
    (mapIgnore r = none → r ≠ some (.error .fullPacketExpected) →
      ∀ (t3 : BulkOnly) (sent2 : List (List Nat)) (r2 : Option TransportError),
        t2.read rx tx = (t3, sent2, r2) →
        pollLoop cb tx rx (fuel + 1) t =
          (t3, 1,
           match mapIgnore r2 with
           | some e => LoopExit.usbErr e
           | none => LoopExit.done)) ∧
    (∀ c : Nat, r = some (.usb (.other c)) →
      pollLoop cb tx rx (fuel + 1) t = (t2, 1, .usbErr (.other c))) := by
  refine ⟨?_, ?_, ?_⟩
  · intro hr
    subst hr
    rcases hrec : pollLoop cb tx rx fuel t2 with ⟨a, n, ex⟩
    simp [pollLoop, hw, hrec]
  · intro hmi hne t3 sent2 r2 hrd
    rcases hmi2 : mapIgnore r2 with _ | e
    · cases r with
      | none => simp [pollLoop, hw, hrd, hmi2]
      | some te =>
        cases te with
        | usb ue =>
          cases ue with
          | wouldBlock => simp [pollLoop, hw, hrd, hmi2]
          | other c => simp [mapIgnore] at hmi
        | error be =>
          cases be <;> simp [pollLoop, hw, hrd, hmi2]
          exact absurd rfl hne
    · cases r with
      | none => simp [pollLoop, hw, hrd, hmi2]
      | some te =>
        cases te with
        | usb ue =>
          cases ue with
          | wouldBlock => simp [pollLoop, hw, hrd, hmi2]
          | other c => simp [mapIgnore] at hmi
        | error be =>
          cases be <;> simp [pollLoop, hw, hrd, hmi2]
          exact absurd rfl hne
  · intro c hr
    subst hr
    simp [pollLoop, hw]

/-- C6 witness: on `t5` (device-to-host phase expecting a full packet with
an empty buffer) the write after the callback returns
`FullPacketExpected`, so the loop re-enters the callback: with fuel 1 the
single extra iteration is visible in the invocation count. -/
theorem c6_poll_loop_witness :
    (cbId t5).write (.ok ()) = (t5, [], some (.error .fullPacketExpected)) ∧
    pollLoop cbId (.ok ()) (.error .wouldBlock) 1 t5 = (t5, 1, .fuelOut) := by
  refine ⟨by decide, ?_⟩
  have h := (c6_poll_loop cbId (.ok ()) (.error .wouldBlock) 0 t5 t5 []
    (some (.error .fullPacketExpected)) (by decide)).1 rfl
  exact h.trans (by decide)
